import Mathlib

/-!
Shallow embedding of the font discovery/selection subsystem of the
`fastapi-html2pdf` service (sources: `fastapi_pdf_project/main.py` and
`fastapi_pdf_project/main_old.py`), together with theorems settling the
specification claims about it.

Modelling conventions:
* A font file on disk is modelled by `FontFile`: either the fontTools
  `TTFont` constructor raises (`unparsable`), or parsing succeeds and we
  see the font's cmap subtables (each a set of mapped codepoints, as the
  Python code only reads `table.cmap.keys()`) and its name table.
  Accessing a missing table (`tt["cmap"]` / `tt["name"]`) raises in
  Python; this is modelled by the corresponding `Option` being `none`.
  A name record whose decoding (`toUnicode`/`toStr`) raises is modelled
  by `value = none`.
* Python string operations (`.lower()`, `.strip()`, `\s` in regexes) are
  modelled on ASCII; the inputs relevant to the claims are ASCII, and the
  code never relies on non-ASCII case folding.
* Python truthiness of an optional string (`if not x:`) is `none` or
  `some ""`.
* The HTTP layer, WeasyPrint and the filesystem are external
  collaborators: endpoint handlers are modelled as pure functions taking
  the directory state, a file-existence predicate and the rendering
  engine (a function that may fail with a message) as parameters.
-/

namespace FastapiHtml2Pdf

/-- ASCII model of Python whitespace (the characters matched by `str.strip()`
with no arguments and by `\s` in a regex): space, tab, LF, CR, VT, FF. -/
def pyIsWs (c : Char) : Bool :=
  c = ' ' || c = '\t' || c = '\n' || c = '\r' || c = '\x0b' || c = '\x0c'

/-- ASCII model of Python `str.lower()` on a single character. -/
def pyLowerChar (c : Char) : Char :=
  if 'A' ≤ c && c ≤ 'Z' then Char.ofNat (c.toNat + 32) else c

/-- ASCII model of Python `str.lower()`. -/
def pyLower (s : String) : String := ⟨s.data.map pyLowerChar⟩

/-- Python `str.strip(chars)`: remove the characters satisfying `p` from both
ends of the list. -/
def pyStripList (p : Char → Bool) (l : List Char) : List Char :=
  ((l.dropWhile p).reverse.dropWhile p).reverse

/-- Python `str.strip()` (no arguments): strip whitespace from both ends. -/
def pyStrip (s : String) : String := ⟨pyStripList pyIsWs s.data⟩

/-- One record of a font's `name` table: its numeric `nameID` and its decoded
string value (`none` when `toUnicode`/`toStr` raises). -/
structure NameRecord where
  nameID : Nat
  value : Option String
deriving DecidableEq

/-- The observable content of a successfully parsed font file: the cmap
subtables (`none` when the font has no `cmap` table, so `tt["cmap"]` raises)
with the codepoints each maps, and the name table (`none` when `tt["name"]`
raises). -/
structure FontData where
  cmapTables : Option (List (List Nat))
  nameTable : Option (List NameRecord)
deriving DecidableEq

/-- A font file as seen through fontTools: either the `TTFont` constructor
raises, or it yields `FontData`. -/
inductive FontFile
  | unparsable
  | parsed (d : FontData)
deriving DecidableEq

/-- The five inclusive Arabic codepoint ranges tested by
`font_supports_arabic` (main.py lines 46-52). -/
def isArabicCodepoint (cp : Nat) : Bool :=
  (0x0600 ≤ cp && cp ≤ 0x06FF) ||
  (0x0750 ≤ cp && cp ≤ 0x077F) ||
  (0x08A0 ≤ cp && cp ≤ 0x08FF) ||
  (0xFB50 ≤ cp && cp ≤ 0xFDFF) ||
  (0xFE70 ≤ cp && cp ≤ 0xFEFF)

/-- Embedding of `font_supports_arabic` (main.py lines 40-58): true when any cmap subtable
maps a codepoint in one of the Arabic ranges; any exception (unparsable file,
missing cmap table) is swallowed and the function returns `False`. -/
def font_supports_arabic (f : FontFile) : Bool :=
  match f with
  | .unparsable => false
  | .parsed d =>
    match d.cmapTables with
    | none => false
    | some tables => tables.any (fun t => t.any isArabicCodepoint)

/-- Embedding of `get_family_from_fontfile` (main.py lines 89-105), also the
family-extraction block inlined in `get_font_display_list` (lines 70-82):
the value of the first name record with `nameID == 1`; `none` when parsing
fails, the name table is missing, no such record exists, or decoding the
record raises. -/
def get_family_from_fontfile (f : FontFile) : Option String :=
  match f with
  | .unparsable => none
  | .parsed d =>
    match d.nameTable with
    | none => none
    | some records =>
      match records.find? (fun r => r.nameID = 1) with
      | none => none
      | some r => r.value

/-- A catalog entry as built by `get_font_display_list`:
`{"filename": f.name, "family": family_name}`. -/
structure FontEntry where
  filename : String
  family : String
deriving DecidableEq

/-- One directory entry of the font directory: its file name, whether it is a
regular file (`f.is_file()`), and the font content behind it. -/
structure DirEntry where
  name : String
  isFile : Bool
  font : FontFile
deriving DecidableEq

/-- The state of the configured font directory (`WINDOWS_FONTS_DIR`):
whether it exists and the entries `iterdir()` yields, in order. -/
structure FontDir where
  dirExists : Bool
  entries : List DirEntry

/-- Model of `pathlib.Path.suffix` computed from the file name: the substring from the
last dot, provided that dot is neither the first nor the last character;
otherwise the empty string. -/
def pathSuffix (name : String) : String :=
  let l := name.data
  match l.reverse.findIdx? (fun c => c = '.') with
  | none => ""
  | some j =>
    let i := l.length - 1 - j
    if 0 < i && i < l.length - 1 then ⟨l.drop i⟩ else ""

/-- The per-entry body of the scan loop of `get_font_display_list`
(main.py lines 67-85): keep regular files with extension `.ttf`/`.otf`
(case-insensitive) that support Arabic and yield a truthy family name. -/
def displayListStep (fonts : List FontEntry) (f : DirEntry) : List FontEntry :=
  if f.isFile && (pyLower (pathSuffix f.name) = ".ttf" ||
                  pyLower (pathSuffix f.name) = ".otf") then
    if font_supports_arabic f.font then
      match get_family_from_fontfile f.font with
      | some fam => if fam ≠ "" then fonts ++ [⟨f.name, fam⟩] else fonts
      | none => fonts
    else fonts
  else fonts

/-- Embedding of `get_font_display_list` (main.py lines 61-86): scan the font directory,
collect Arabic-capable fonts with a truthy family name, and sort by
lowercased family (`sorted(fonts, key=lambda x: x["family"].lower())`). -/
def get_font_display_list (dir : FontDir) : List FontEntry :=
  if dir.dirExists = false then []
  else
    (dir.entries.foldl displayListStep []).mergeSort
      (fun a b => decide (pyLower a.family ≤ pyLower b.family))

/-- The per-entry outcome of the scan loop of `get_font_display_list`: the
catalog entry appended for a directory entry, when one is. -/
def displayListAccept (f : DirEntry) : Option FontEntry :=
  if f.isFile && (pyLower (pathSuffix f.name) = ".ttf" ||
                  pyLower (pathSuffix f.name) = ".otf") then
    if font_supports_arabic f.font then
      match get_family_from_fontfile f.font with
      | some fam => if fam ≠ "" then some ⟨f.name, fam⟩ else none
      | none => none
    else none
  else none

/-- Case-insensitive match of a literal pattern (here always `font-family`,
the literal part of `FONTFAMILY_REGEXES` under `re.IGNORECASE`) against the
start of the input; returns the remaining input on success. -/
def matchLiteralCI : List Char → List Char → Option (List Char)
  | [], rest => some rest
  | _ :: _, [] => none
  | c :: cs, d :: ds => if pyLowerChar d = c then matchLiteralCI cs ds else none

/-- The non-quoted branch `[^;"\x7d]+` of the value alternation of
`FONTFAMILY_REGEXES` (main.py line 183): a greedy nonempty run of characters
other than `;`, `"` and `\x7d`; nothing follows it in the pattern, so the
greedy run is final. -/
def matchValueNq (s : List Char) : Option (List Char × List Char) :=
  let run := s.takeWhile (fun d => !(d = ';' || d = '\x22' || d = '\x7d'))
  if run.isEmpty then none else some (run, s.drop run.length)

/-- The value alternation of `FONTFAMILY_REGEXES`: a quoted value
`(["\x27])(?P<q>[^"\x27]+)\1` or, failing that, the non-quoted branch.
Since `[^"\x27]+` excludes both quote characters, the quoted branch matches
exactly when at least one non-quote character follows the opening quote and
the next quote character equals it (regex backtracking cannot rescue any
other case, because every shorter run is still followed by a non-quote
character). When the quoted branch fails, Python's engine can also backtrack
into the preceding `\s*`; any match rescued that way captures only
whitespace, which `strip()` reduces to the empty string and the candidate
loop discards, so those matches are not modelled. -/
def matchValue (s : List Char) : Option (List Char × List Char) :=
  match s with
  | [] => none
  | c :: cs =>
    if c = '\x22' || c = '\x27' then
      let run := cs.takeWhile (fun d => !(d = '\x22' || d = '\x27'))
      match cs.drop run.length with
      | d :: ds => if !run.isEmpty && d = c then some (run, ds)
                   else matchValueNq s
      | [] => matchValueNq s
    else matchValueNq s

/-- Attempt to match `FONTFAMILY_REGEXES` at the start of `s`
(`font-family\s*:\s*` followed by the value alternation), returning the
captured family text and the input remaining after the match. -/
def matchFontFamilyAt (s : List Char) : Option (List Char × List Char) :=
  match matchLiteralCI "font-family".data s with
  | none => none
  | some r1 =>
    match r1.dropWhile pyIsWs with
    | ':' :: r2 => matchValue (r2.dropWhile pyIsWs)
    | _ => none

/-- Model of `re.finditer` over the document text: try the pattern at each position
from left to right; on a match, continue after it, otherwise advance one
character. `fuel` bounds the recursion; since every step consumes at least
one character, `s.length` suffices. -/
def scanFontFamilies : Nat → List Char → List (List Char)
  | 0, _ => []
  | _ + 1, [] => []
  | fuel + 1, s =>
    match matchFontFamilyAt s with
    | some (fam, rest) => fam :: scanFontFamilies fuel rest
    | none => scanFontFamilies fuel (s.drop 1)

/-- The post-processing applied to each capture (main.py line 195):
`fam.split(',')[0].strip().strip('"').strip("'")` — the text up to the first
comma, stripped of whitespace, then of double quotes, then of single
quotes, in that order. -/
def processCandidate (fam : List Char) : List Char :=
  pyStripList (fun c => c = '\x27')
    (pyStripList (fun c => c = '\x22')
      (pyStripList pyIsWs (fam.takeWhile (fun c => !(c = ',')))))

/-- Embedding of `extract_font_family_candidates` (main.py lines 186-198): empty input
yields no candidates; otherwise scan the text with the regex and keep each
truthy processed capture once, in first-seen order. -/
def extract_font_family_candidates (html : String) : List String :=
  if html = "" then []
  else
    (scanFontFamilies html.data.length html.data).foldl
      (fun candidates fam =>
        let fam : String := ⟨processCandidate fam⟩
        if fam ≠ "" && !candidates.contains fam then candidates ++ [fam]
        else candidates) []

/-- The fixed ordered fallback preference list (main.py line 208). -/
def FALLBACK_FONTS : List String :=
  ["Traditional Arabic", "Arial", "Tahoma", "Noto Kufi Arabic", "Segoe UI"]

/-- The dict built by `choose_font_from_html` (main.py line 202):
`{f["family"].strip().lower(): f["filename"] for f in fonts}`. Later
entries overwrite earlier ones with the same key, so looking up a key
returns the filename of the last entry whose stripped lowercased family
equals it. -/
def fontMapLookup (fonts : List FontEntry) (key : String) : Option String :=
  (fonts.reverse.find? (fun f => pyLower (pyStrip f.family) = key)).map
    (fun f => f.filename)

/-- Embedding of `choose_font_from_html` (main.py lines 201-213), parameterised by the
catalog `fonts` (the source obtains it by calling `get_font_display_list()`):
return the first HTML candidate whose stripped lowercased name is a key of
the mapping, paired with its filename; otherwise the first fallback whose
lowercased name is a key; otherwise `(None, None)`. -/
def choose_font_from_html (fonts : List FontEntry) (html : String) :
    Option String × Option String :=
  match (extract_font_family_candidates html).findSome?
      (fun fam => (fontMapLookup fonts (pyLower (pyStrip fam))).map
        (fun fn => (fam, fn))) with
  | some (fam, fn) => (some fam, some fn)
  | none =>
    match FALLBACK_FONTS.findSome?
        (fun fb => (fontMapLookup fonts (pyLower fb)).map
          (fun fn => (fb, fn))) with
    | some (fb, fn) => (some fb, some fn)
    | none => (none, none)

/-- Order-preserving de-duplication relative to an already-seen prefix:
keep an element only the first time it appears (counting the elements of
`seen` as already present). -/
def dedupSeen : List String → List String → List String
  | _, [] => []
  | seen, x :: xs =>
    if seen.contains x then dedupSeen seen xs
    else x :: dedupSeen (seen ++ [x]) xs

/-- Keep the first occurrence of each element, dropping later duplicates
(the effect of `if fam not in candidates: candidates.append(fam)`). -/
def dedupKeepFirst (l : List String) : List String := dedupSeen [] l

/-- The candidate list as the specification describes it, parameterised by
the trimming applied to each captured name: the first comma-separated part
of each regex capture, trimmed, kept when nonempty, deduplicated keeping
first occurrences. -/
def candidatesDescribed (trim : List Char → List Char) (html : String) :
    List String :=
  dedupKeepFirst
    (((scanFontFamilies html.data.length html.data).map
        (fun fam => (⟨trim (fam.takeWhile (fun c => !(c = ',')))⟩ : String))).filter
      (fun fam => fam ≠ ""))

/-- The trim claim C3 describes: remove whitespace and quote characters of
both kinds from both ends, simultaneously. -/
def specTrim (fam : List Char) : List Char :=
  pyStripList (fun c => pyIsWs c || c = '\x22' || c = '\x27') fam

/-- The trim the code actually performs (main.py line 195): strip
whitespace, then double quotes, then single quotes, in that order. -/
def codeTrim (fam : List Char) : List Char :=
  pyStripList (fun c => c = '\x27')
    (pyStripList (fun c => c = '\x22') (pyStripList pyIsWs fam))

/-- The selector as claim C3 words it: candidates trimmed of quotes and
whitespace; a candidate matches when its lowercased name equals some
entry's lowercased family, and is paired with that entry's filename (the
last such entry, matching the dict semantics); then the fallback list. -/
def chooseFontClaimC3 (fonts : List FontEntry) (html : String) :
    Option String × Option String :=
  match (candidatesDescribed specTrim html).findSome?
      (fun fam => ((fonts.filter
          (fun e => pyLower e.family = pyLower fam)).getLast?).map
        (fun e => (fam, e.filename))) with
  | some (fam, fn) => (some fam, some fn)
  | none =>
    match FALLBACK_FONTS.findSome?
        (fun fb => ((fonts.filter
            (fun e => pyLower e.family = pyLower fb)).getLast?).map
          (fun e => (fb, e.filename))) with
    | some (fb, fn) => (some fb, some fn)
    | none => (none, none)

/-- The selector as amended: candidates trimmed in the code's order
(whitespace, then double quotes, then single quotes); a candidate matches
when its stripped lowercased name equals some entry's stripped lowercased
family, paired with the last such entry's filename; the fallback names are
matched by lowercasing alone. -/
def chooseFontAmendedC3 (fonts : List FontEntry) (html : String) :
    Option String × Option String :=
  match (candidatesDescribed codeTrim html).findSome?
      (fun fam => ((fonts.filter
          (fun e => pyLower (pyStrip e.family) = pyLower (pyStrip fam))).getLast?).map
        (fun e => (fam, e.filename))) with
  | some (fam, fn) => (some fam, some fn)
  | none =>
    match FALLBACK_FONTS.findSome?
        (fun fb => ((fonts.filter
            (fun e => pyLower (pyStrip e.family) = pyLower fb)).getLast?).map
          (fun e => (fb, e.filename))) with
    | some (fb, fn) => (some fb, some fn)
    | none => (none, none)

/-- Python truthiness of an optional string: `None` and `""` are falsy. -/
def pyTruthy : Option String → Bool
  | none => false
  | some s => !(s = "")

/-- Python `a or b` on optional strings: `a` if truthy, else `b`. -/
def pyOr (a b : Option String) : Option String :=
  if pyTruthy a then a else b

/-- An error raised via `HTTPException`: status code and detail string. -/
structure HttpError where
  status : Nat
  detail : String
deriving DecidableEq

/-- Margin constants of `build_css` (main.py lines 118-121), millimetres. -/
def MARGIN_TOP_MM : Nat := 40

def MARGIN_RIGHT_MM : Nat := 10

def MARGIN_BOTTOM_MM : Nat := 40

def MARGIN_LEFT_MM : Nat := 10

/-- The `@page` block of `build_css` (main.py lines 123-148): A4 geometry
with the margin constants, empty header/footer corners, and a localized
page counter in the bottom-center slot. The indentation of the Python
triple-quoted f-string is not reproduced; the content is. -/
def page_css : String :=
  "@page \x7b size: A4; margin: " ++ toString MARGIN_TOP_MM ++ "mm " ++
    toString MARGIN_RIGHT_MM ++ "mm " ++ toString MARGIN_BOTTOM_MM ++
    "mm " ++ toString MARGIN_LEFT_MM ++ "mm; " ++
  "@top-center \x7b content: \x22\x22; font-size: 14pt; \x7d " ++
  "@bottom-left \x7b content: \x22\x22; font-size: 11pt; \x7d " ++
  "@bottom-center \x7b content: \x22صفحة \x22 counter(page) \x22 من \x22 " ++
    "counter(pages); font-size: 11pt; \x7d " ++
  "@bottom-right \x7b content: \x22\x22; font-size: 11pt; \x7d \x7d"

/-- The stylesheet text of `build_css` when both a family and a font URI are
supplied (main.py lines 151-162): `@font-face` binding plus RTL body using
that family with a serif fallback. -/
def cssWithFont (fam uri : String) : String :=
  "@font-face \x7b font-family: \x27" ++ fam ++ "\x27; src: url(\x27" ++
    uri ++ "\x27); \x7d " ++ page_css ++
    " body \x7b direction: rtl; font-family: \x27" ++ fam ++
    "\x27, serif; line-height: 1.7; \x7d"

/-- The stylesheet text of `build_css` without a font (main.py lines
164-170): page geometry and RTL body only. -/
def cssNoFont : String :=
  page_css ++ " body \x7b direction: rtl; line-height: 1.7; \x7d"

/-- Embedding of `build_css` (main.py lines 108-172), modelled as the stylesheet text it
wraps in a `CSS` object. `if font_family and font_path_uri:` uses Python
truthiness, so an empty string behaves like `None`. -/
def build_css (font_family font_path_uri : Option String) : String :=
  match font_family, font_path_uri with
  | some fam, some uri =>
    if !(fam = "") && !(uri = "") then cssWithFont fam uri else cssNoFont
  | _, _ => cssNoFont

/-- The stylesheet text built inline by the strict endpoint
(main_old.py lines 136-146): `@font-face` plus RTL body, no `@page` block. -/
def old_custom_css (fam uri : String) : String :=
  "@font-face \x7b font-family: \x27" ++ fam ++ "\x27; src: url(\x27" ++
    uri ++ "\x27); \x7d body \x7b direction: rtl; font-family: \x27" ++
    fam ++ "\x27, serif; line-height: 1.7; \x7d"

/-- The request to `POST /api/convert-html` (both versions): the three form
fields and the optional JSON body `(html_content, font_filename,
font_family)`. Python's `if json_data:` is true only for a nonempty dict,
so an absent or empty JSON body is modelled as `none`. -/
structure ConvertHtmlRequest where
  form_html_content : Option String
  form_font_filename : Option String
  form_font_family : Option String
  json_data : Option (Option String × Option String × Option String)

/-- The effective `(html_content, font_filename, font_family)` after the
JSON body, when present, overrides the form fields (main.py lines 237-240,
main_old.py lines 116-119). -/
def effectiveFields (req : ConvertHtmlRequest) :
    Option String × Option String × Option String :=
  match req.json_data with
  | some j => j
  | none => (req.form_html_content, req.form_font_filename,
             req.form_font_family)

/-- The font resolution of `convert_html` (main.py lines 245-250): when
either supplied field is falsy, auto-select from the HTML, then fill each
missing field from the auto-selection; returns the resolved
`(font_family, font_filename)`. -/
def resolveFontConvert (req : ConvertHtmlRequest) (dir : FontDir) :
    Option String × Option String :=
  let f := effectiveFields req
  let chosen :=
    if !pyTruthy f.2.1 || !pyTruthy f.2.2 then
      choose_font_from_html (get_font_display_list dir) (f.1.getD "")
    else (none, none)
  (pyOr f.2.2 chosen.1, pyOr f.2.1 chosen.2)

/-- The stylesheet selection shared by both lenient endpoints (main.py
lines 252-259 and 293-300): embed the font only when the resolved pair is
truthy and the referenced file exists; otherwise fall back to the
no-font-face stylesheet. `toUri` models `font_path.as_uri()`. -/
def cssForResolved (resolved : Option String × Option String)
    (fileExists : String → Bool) (toUri : String → String) : String :=
  if pyTruthy resolved.1 && pyTruthy resolved.2 then
    if !(fileExists (resolved.2.getD "")) then build_css none none
    else build_css resolved.1 (some (toUri (resolved.2.getD "")))
  else build_css none none

/-- Wrap the outcome of the rendering engine as the endpoints do (main.py
lines 261-264 and 302-305): success passes the PDF bytes through, any
engine error becomes HTTP 500 with the engine's message in the detail. -/
def renderOutcome (render : String → String → Except String (List Nat))
    (html css : String) : Except HttpError (List Nat) :=
  match render html css with
  | .ok b => .ok b
  | .error e => .error ⟨500, "PDF generation failed: " ++ e⟩

/-- Embedding of `convert_html` (main.py lines 231-267), up to base64 encoding of the
returned bytes: merge JSON over form fields, reject falsy `html_content`
with 400, resolve the font, build the stylesheet, render. The directory
state, file existence, URI formation and the rendering engine are external
parameters. -/
def convert_html (req : ConvertHtmlRequest) (dir : FontDir)
    (fileExists : String → Bool) (toUri : String → String)
    (render : String → String → Except String (List Nat)) :
    Except HttpError (List Nat) :=
  let f := effectiveFields req
  if !pyTruthy f.1 then .error ⟨400, "Missing html_content."⟩
  else
    renderOutcome render (f.1.getD "")
      (cssForResolved (resolveFontConvert req dir) fileExists toUri)

/-- The JSON payload of `POST /api/pdf/savepdf` (main.py lines 271-275),
as the handler receives it: `HtmlContent: str` is a required field with no
default, so it is a plain `String` here; the other three fields are
`Optional[str] = None`. -/
structure SavePdfPayload where
  HtmlContent : String
  FileName : Option String
  FontFileName : Option String
  FontFamily : Option String

/-- The raw JSON body of `POST /api/pdf/savepdf` as it arrives on the wire,
before request validation: every field may be absent. -/
structure SavePdfBody where
  HtmlContent : Option String
  FileName : Option String
  FontFileName : Option String
  FontFamily : Option String

/-- Request validation performed by the HTTP framework before the `save_pdf`
handler runs: main.py line 272 declares `HtmlContent: str` with no default,
so a JSON body missing that field fails pydantic validation and FastAPI
answers HTTP 422 (its documented behavior for a request validation error)
without ever invoking the handler. Only the status matters to the claims;
the detail string stands in for the framework's structured error body. -/
def validateSavePdfBody (body : SavePdfBody) :
    Except HttpError SavePdfPayload :=
  match body.HtmlContent with
  | none => .error ⟨422, "Field required: HtmlContent"⟩
  | some h => .ok ⟨h, body.FileName, body.FontFileName, body.FontFamily⟩

/-- The font resolution of `save_pdf` (main.py lines 285-291): identical
policy to `convert_html`, reading the payload fields. -/
def resolveFontSave (payload : SavePdfPayload) (dir : FontDir) :
    Option String × Option String :=
  let chosen :=
    if !pyTruthy payload.FontFamily || !pyTruthy payload.FontFileName then
      choose_font_from_html (get_font_display_list dir)
        payload.HtmlContent
    else (none, none)
  (pyOr payload.FontFamily chosen.1, pyOr payload.FontFileName chosen.2)

/-- Embedding of `save_pdf` (main.py lines 279-308): reject falsy
`HtmlContent` with 400 (`if not html:` on a required `str` is true exactly
for the empty string), default the download file name to `document.pdf`,
resolve the font, build the stylesheet, render; success carries the
attachment file name and the PDF bytes. -/
def save_pdf (payload : SavePdfPayload) (dir : FontDir)
    (fileExists : String → Bool) (toUri : String → String)
    (render : String → String → Except String (List Nat)) :
    Except HttpError (String × List Nat) :=
  if payload.HtmlContent = "" then
    .error ⟨400, "HtmlContent is required."⟩
  else
    let file_name := (pyOr payload.FileName (some "document.pdf")).getD ""
    match renderOutcome render payload.HtmlContent
        (cssForResolved (resolveFontSave payload dir) fileExists toUri) with
    | .ok b => .ok (file_name, b)
    | .error e => .error e

/-- The `POST /api/pdf/savepdf` route as seen from the transport: framework
request validation of the raw body, then the handler. -/
def savepdf_endpoint (body : SavePdfBody) (dir : FontDir)
    (fileExists : String → Bool) (toUri : String → String)
    (render : String → String → Except String (List Nat)) :
    Except HttpError (String × List Nat) :=
  match validateSavePdfBody body with
  | .error e => .error e
  | .ok payload => save_pdf payload dir fileExists toUri render

/-- The dict built by the strict endpoint (main_old.py line 125):
`{f["filename"]: f["family"]}`; later entries with the same filename
overwrite earlier ones, so lookup returns the family of the last one. -/
def validFontsLookup (fonts : List FontEntry) (fn : String) : Option String :=
  (fonts.reverse.find? (fun f => f.filename = fn)).map (fun f => f.family)

/-- The strict `convert_html` (main_old.py lines 105-156): all three fields
are required (400 otherwise); the supplied filename must be a catalog key
whose declared family equals the supplied family verbatim (400 otherwise);
the font file must exist on disk (400 otherwise); then render with the
inline stylesheet, wrapping engine errors as 500. -/
def convert_html_old (req : ConvertHtmlRequest) (dir : FontDir)
    (fileExists : String → Bool) (toUri : String → String)
    (render : String → String → Except String (List Nat)) :
    Except HttpError (List Nat) :=
  let f := effectiveFields req
  if !pyTruthy f.1 || !pyTruthy f.2.1 || !pyTruthy f.2.2 then
    .error ⟨400, "Missing required data."⟩
  else
    let fn := f.2.1.getD ""
    let fam := f.2.2.getD ""
    if !(validFontsLookup (get_font_display_list dir) fn = some fam) then
      .error ⟨400, "Invalid font selection."⟩
    else if !(fileExists fn) then .error ⟨400, "Font file not found."⟩
    else renderOutcome render (f.1.getD "") (old_custom_css fam (toUri fn))

/-- Handle accounting for one inspector call: how many `TTFont` handles the
call opened and how many times it reached `tt.close()`. -/
structure HandleTrace where
  opened : Nat
  closed : Nat
deriving DecidableEq

/-- Instrumented `font_supports_arabic` with handle accounting. A successful
`TTFont(...)` construction opens a handle; `tt.close()` is reached only on
the two normal paths (main.py lines 53 and 55). When `tt["cmap"]` raises
(cmap table missing), the bare `except` swallows the exception and the
close call is never reached. -/
def font_supports_arabic_traced (f : FontFile) : Bool × HandleTrace :=
  match f with
  | .unparsable => (false, ⟨0, 0⟩)
  | .parsed d =>
    match d.cmapTables with
    | none => (false, ⟨1, 0⟩)
    | some tables =>
      if tables.any (fun t => t.any isArabicCodepoint) then (true, ⟨1, 1⟩)
      else (false, ⟨1, 1⟩)

/-- Instrumented `get_family_from_fontfile` with handle accounting:
`tt.close()` (main.py line 102) is reached only when neither `tt["name"]`
nor the record decoding raises; on those exception paths the handle is
left unclosed. -/
def get_family_from_fontfile_traced (f : FontFile) :
    Option String × HandleTrace :=
  match f with
  | .unparsable => (none, ⟨0, 0⟩)
  | .parsed d =>
    match d.nameTable with
    | none => (none, ⟨1, 0⟩)
    | some records =>
      match records.find? (fun r => r.nameID = 1) with
      | none => (none, ⟨1, 1⟩)
      | some r =>
        match r.value with
        | none => (none, ⟨1, 0⟩)
        | some v => (some v, ⟨1, 1⟩)

/-- Characterisation: `font_supports_arabic` returns true exactly when the file parses, has a
cmap table, and some subtable maps a codepoint in an Arabic range. -/
lemma font_supports_arabic_iff (f : FontFile) :
    font_supports_arabic f = true ↔
      ∃ d tables, f = FontFile.parsed d ∧ d.cmapTables = some tables ∧
        ∃ t ∈ tables, ∃ cp ∈ t, isArabicCodepoint cp = true := by
  cases f with
  | unparsable => simp [font_supports_arabic]
  | parsed d =>
    cases h : d.cmapTables with
    | none => simp [font_supports_arabic, h]
    | some tables =>
      simp only [font_supports_arabic, h, List.any_eq_true]
      constructor
      · rintro ⟨t, ht, cp, hcp, harab⟩
        exact ⟨d, tables, rfl, h, t, ht, cp, hcp, harab⟩
      · rintro ⟨d', tables', heq, hc, t, ht, cp, hcp, harab⟩
        cases heq
        rw [h] at hc
        cases hc
        exact ⟨t, ht, cp, hcp, harab⟩

lemma displayListStep_eq (fonts : List FontEntry) (f : DirEntry) :
    displayListStep fonts f = fonts ++ (displayListAccept f).toList := by
  unfold displayListStep displayListAccept
  split_ifs with h1 h2
  · cases hf : get_family_from_fontfile f.font with
    | none => simp
    | some fam => dsimp only; split_ifs with h3 <;> simp
  · simp
  · simp

lemma foldl_displayListStep (entries : List DirEntry) (acc : List FontEntry) :
    entries.foldl displayListStep acc =
      acc ++ entries.filterMap displayListAccept := by
  induction entries generalizing acc with
  | nil => simp
  | cons f fs ih =>
    rw [List.foldl_cons, ih, displayListStep_eq, List.filterMap_cons]
    cases h : displayListAccept f <;> simp [h]

lemma displayListAccept_some {f : DirEntry} {e : FontEntry}
    (h : displayListAccept f = some e) :
    e.filename = f.name ∧ e.family ≠ "" ∧ f.isFile = true ∧
      (pyLower (pathSuffix f.name) = ".ttf" ∨
       pyLower (pathSuffix f.name) = ".otf") ∧
      font_supports_arabic f.font = true := by
  unfold displayListAccept at h
  split_ifs at h with h1 h2
  · rcases Bool.and_eq_true .. |>.mp h1 with ⟨hfile, hext⟩
    cases hf : get_family_from_fontfile f.font with
    | none => rw [hf] at h; cases h
    | some fam =>
      rw [hf] at h
      dsimp only at h
      split_ifs at h with h3
      · cases h
        refine ⟨rfl, h3, hfile, ?_, h2⟩
        rcases Bool.or_eq_true .. |>.mp hext with h4 | h4
        · exact Or.inl (of_decide_eq_true h4)
        · exact Or.inr (of_decide_eq_true h4)

lemma mem_display_list {dir : FontDir} {e : FontEntry}
    (he : e ∈ get_font_display_list dir) :
    ∃ f ∈ dir.entries, displayListAccept f = some e := by
  unfold get_font_display_list at he
  split at he
  · exact absurd he (by simp)
  · rw [List.mem_mergeSort, foldl_displayListStep, List.nil_append,
      List.mem_filterMap] at he
    exact he

lemma display_list_sorted (dir : FontDir) :
    (get_font_display_list dir).Pairwise
      (fun a b => pyLower a.family ≤ pyLower b.family) := by
  unfold get_font_display_list
  split
  · exact List.Pairwise.nil
  · refine List.Pairwise.imp (fun h => of_decide_eq_true h)
      (List.sorted_mergeSort ?_ ?_ _)
    · intro a b c hab hbc
      exact decide_eq_true_eq.mpr
        (le_trans (of_decide_eq_true hab) (of_decide_eq_true hbc))
    · intro a b
      rcases le_total (pyLower a.family) (pyLower b.family) with h | h
      · simp [h]
      · simp [h]

/-- C2: for every state of the font directory, the catalog returned by
`get_font_display_list` has no entry with an empty family name, is sorted
case-insensitively by family, and contains only entries for regular files
with a `.ttf`/`.otf` extension (case-insensitive) whose character map
includes at least one Arabic codepoint. -/
theorem claim_C2 (dir : FontDir) :
    (∀ e ∈ get_font_display_list dir, e.family ≠ "") ∧
    (get_font_display_list dir).Pairwise
      (fun a b => pyLower a.family ≤ pyLower b.family) ∧
    (∀ e ∈ get_font_display_list dir,
      ∃ f ∈ dir.entries, e.filename = f.name ∧ f.isFile = true ∧
        (pyLower (pathSuffix f.name) = ".ttf" ∨
         pyLower (pathSuffix f.name) = ".otf") ∧
        ∃ d tables, f.font = FontFile.parsed d ∧ d.cmapTables = some tables ∧
          ∃ t ∈ tables, ∃ cp ∈ t, isArabicCodepoint cp = true) := by
  refine ⟨?_, display_list_sorted dir, ?_⟩
  · intro e he
    obtain ⟨f, _, hacc⟩ := mem_display_list he
    exact (displayListAccept_some hacc).2.1
  · intro e he
    obtain ⟨f, hf, hacc⟩ := mem_display_list he
    obtain ⟨hname, _, hfile, hext, hsup⟩ := displayListAccept_some hacc
    obtain ⟨d, tables, hp, hc, harab⟩ := (font_supports_arabic_iff f.font).mp hsup
    exact ⟨f, hf, hname, hfile, hext, d, tables, hp, hc, harab⟩

/-- Witness for C2: a concrete one-font directory whose single entry passes
all filters; the catalog contains it and C2 exhibits its provenance. -/
theorem claim_C2_witness :
    (FontEntry.mk "A.TTF" "Alpha") ∈ get_font_display_list
      ⟨true, [⟨"A.TTF", true,
        FontFile.parsed ⟨some [[0x627]], some [⟨1, some "Alpha"⟩]⟩⟩]⟩ ∧
    (∃ f ∈ (FontDir.mk true [⟨"A.TTF", true,
        FontFile.parsed ⟨some [[0x627]], some [⟨1, some "Alpha"⟩]⟩⟩]).entries,
      (FontEntry.mk "A.TTF" "Alpha").filename = f.name ∧ f.isFile = true ∧
        (pyLower (pathSuffix f.name) = ".ttf" ∨
         pyLower (pathSuffix f.name) = ".otf") ∧
        ∃ d tables, f.font = FontFile.parsed d ∧ d.cmapTables = some tables ∧
          ∃ t ∈ tables, ∃ cp ∈ t, isArabicCodepoint cp = true) := by
  constructor
  · unfold get_font_display_list
    rw [if_neg (by decide), List.mem_mergeSort]
    decide
  · refine (claim_C2 _).2.2 _ ?_
    unfold get_font_display_list
    rw [if_neg (by decide), List.mem_mergeSort]
    decide

/-- C1: for every font file, `font_supports_arabic` returns true iff some
codepoint mapped in the font's character-to-glyph table lies in one of the
five inclusive Arabic ranges, and returns false (it is a total Boolean
function, never an error) whenever the file cannot be parsed, lacks the cmap
table, or maps no such codepoint. -/
theorem claim_C1 (f : FontFile) :
    (font_supports_arabic f = true ↔
      ∃ d tables, f = FontFile.parsed d ∧ d.cmapTables = some tables ∧
        ∃ t ∈ tables, ∃ cp ∈ t, isArabicCodepoint cp = true) ∧
    font_supports_arabic FontFile.unparsable = false ∧
    (∀ nt, font_supports_arabic (FontFile.parsed ⟨none, nt⟩) = false) := by
  exact ⟨font_supports_arabic_iff f, rfl, fun nt => rfl⟩

lemma find?_reverse_eq (p : FontEntry → Bool) (l : List FontEntry) :
    l.reverse.find? p = (l.filter p).getLast? := by
  induction l with
  | nil => rfl
  | cons x xs ih =>
    rw [List.reverse_cons, List.find?_append, ih, List.filter_cons]
    cases hp : p x
    · simp [List.find?_cons, hp]
    · rw [if_pos rfl, List.getLast?_cons]
      have hx : List.find? p [x] = some x := by simp [List.find?_cons, hp]
      rw [hx]
      cases (xs.filter p).getLast? <;> rfl

lemma fontMapLookup_eq (fonts : List FontEntry) (key : String) :
    fontMapLookup fonts key =
      ((fonts.filter (fun e => pyLower (pyStrip e.family) = key)).getLast?).map
        (fun e => e.filename) := by
  unfold fontMapLookup
  rw [find?_reverse_eq]

lemma foldl_candidates_eq (L : List (List Char)) (acc : List String) :
    L.foldl (fun candidates fam =>
        let fam : String := ⟨processCandidate fam⟩
        if fam ≠ "" && !candidates.contains fam then candidates ++ [fam]
        else candidates) acc =
      acc ++ dedupSeen acc ((L.map
        (fun fam => (⟨processCandidate fam⟩ : String))).filter
          (fun fam => fam ≠ "")) := by
  induction L generalizing acc with
  | nil => simp [dedupSeen]
  | cons f fs ih =>
    rw [List.foldl_cons, List.map_cons, List.filter_cons]
    by_cases hne : (⟨processCandidate f⟩ : String) = ""
    · simp only [hne]
      rw [if_neg (by simp), ih]
      simp [dedupSeen]
    · by_cases hm : (⟨processCandidate f⟩ : String) ∈ acc
      · rw [if_neg (by simp [hm]), ih, if_pos (by simp [hne])]
        simp [dedupSeen, hm]
      · rw [if_pos (by simp [hne, hm]), ih, if_pos (by simp [hne])]
        rw [List.append_assoc]
        simp [dedupSeen, hm]

lemma processCandidate_eq (fam : List Char) :
    processCandidate fam = codeTrim (fam.takeWhile (fun c => !(c = ','))) := rfl

lemma extract_eq_described (html : String) :
    extract_font_family_candidates html = candidatesDescribed codeTrim html := by
  unfold extract_font_family_candidates candidatesDescribed dedupKeepFirst
  split
  · next h => subst h; rfl
  · rw [foldl_candidates_eq, List.nil_append]
    rfl

lemma choose_eq_amended (fonts : List FontEntry) (html : String) :
    choose_font_from_html fonts html = chooseFontAmendedC3 fonts html := by
  unfold choose_font_from_html chooseFontAmendedC3
  rw [extract_eq_described]
  have h1 : (fun fam : String =>
      (fontMapLookup fonts (pyLower (pyStrip fam))).map (fun fn => (fam, fn))) =
      fun fam => ((fonts.filter
          (fun e => pyLower (pyStrip e.family) = pyLower (pyStrip fam))).getLast?).map
        (fun e => (fam, e.filename)) := by
    funext fam
    rw [fontMapLookup_eq, Option.map_map]
    rfl
  have h2 : (fun fb : String =>
      (fontMapLookup fonts (pyLower fb)).map (fun fn => (fb, fn))) =
      fun fb => ((fonts.filter
          (fun e => pyLower (pyStrip e.family) = pyLower fb)).getLast?).map
        (fun e => (fb, e.filename)) := by
    funext fb
    rw [fontMapLookup_eq, Option.map_map]
    rfl
  rw [h1, h2]

/-- C3 fails as stated: the claim requires each candidate to be the first
comma-separated name trimmed of quotes and whitespace, but the code strips
whitespace before quotes, so whitespace uncovered by removing a quote
survives. On HTML declaring `font-family: ' x ,y` with a catalog entry of
family `x`, the code returns the family `" x"` (leading space kept) while
the claim's reading returns `"x"`. -/
theorem claim_C3_counterexample :
    choose_font_from_html [⟨"X.TTF", "x"⟩] "font-family: \x27 x ,y" =
      (some " x", some "X.TTF") ∧
    chooseFontClaimC3 [⟨"X.TTF", "x"⟩] "font-family: \x27 x ,y" =
      (some "x", some "X.TTF") ∧
    choose_font_from_html [⟨"X.TTF", "x"⟩] "font-family: \x27 x ,y" ≠
      chooseFontClaimC3 [⟨"X.TTF", "x"⟩] "font-family: \x27 x ,y" :=
  ⟨by decide, by decide, by decide⟩

/-- C3 (amended): for every HTML string, `choose_font_from_html` scans the
text for `font-family` declarations in first-to-last order, takes for each
only the first comma-separated name trimmed of whitespace, then of double
quotes, then of single quotes (in that order), and returns the first
candidate whose whitespace-stripped lowercased name equals some catalog
entry's whitespace-stripped lowercased family, paired with the last such
entry's filename and with the family in its HTML-declared casing; in
particular, HTML containing `font-family: "Traditional Arabic", serif;`
with catalog entry `{filename: "TRADBDO.TTF", family: "Traditional Arabic"}`
yields `("Traditional Arabic", "TRADBDO.TTF")`. -/
theorem claim_C3 :
    (∀ fonts html,
      choose_font_from_html fonts html = chooseFontAmendedC3 fonts html) ∧
    choose_font_from_html [⟨"TRADBDO.TTF", "Traditional Arabic"⟩]
      "font-family: \x22Traditional Arabic\x22, serif;" =
      (some "Traditional Arabic", some "TRADBDO.TTF") :=
  ⟨choose_eq_amended, by decide⟩

/-- C4: when no HTML-derived candidate matches the catalog,
`choose_font_from_html` falls back through the fixed ordered preference list
and returns the first name present in the catalog with its filename; when no
fallback is present either, it returns `(None, None)`. -/
theorem claim_C4 (fonts : List FontEntry) (html : String)
    (h : ∀ fam ∈ extract_font_family_candidates html,
      fontMapLookup fonts (pyLower (pyStrip fam)) = none) :
    choose_font_from_html fonts html =
      match FALLBACK_FONTS.findSome?
          (fun fb => (fontMapLookup fonts (pyLower fb)).map
            (fun fn => (fb, fn))) with
      | some (fb, fn) => (some fb, some fn)
      | none => (none, none) := by
  unfold choose_font_from_html
  have hnone : (extract_font_family_candidates html).findSome?
      (fun fam => (fontMapLookup fonts (pyLower (pyStrip fam))).map
        (fun fn => (fam, fn))) = none :=
    List.findSome?_eq_none_iff.mpr (fun fam hfam => by rw [h fam hfam]; rfl)
  rw [hnone]

/-- Witness for C4: HTML with no `font-family` declarations and an empty
catalog (so every fallback is absent) yields `(None, None)`. -/
theorem claim_C4_witness :
    choose_font_from_html [] "<h1>hi</h1>" = (none, none) := by
  have he : extract_font_family_candidates "<h1>hi</h1>" = [] := by decide
  have h : ∀ fam ∈ extract_font_family_candidates "<h1>hi</h1>",
      fontMapLookup [] (pyLower (pyStrip fam)) = none := by
    intro fam hfam
    rw [he] at hfam
    exact absurd hfam (List.not_mem_nil fam)
  rw [claim_C4 [] "<h1>hi</h1>" h]
  rfl

/-- C8: if the configured font directory does not exist,
`get_font_display_list` returns the empty sequence rather than raising. -/
theorem claim_C8 (entries : List DirEntry) :
    get_font_display_list ⟨false, entries⟩ = [] := by
  unfold get_font_display_list
  rw [if_pos rfl]

lemma display_list_singleton (dir : FontDir) (e : FontEntry)
    (hex : dir.dirExists = true)
    (hfold : dir.entries.foldl displayListStep [] = [e]) :
    get_font_display_list dir = [e] := by
  unfold get_font_display_list
  rw [if_neg (by simp [hex]), hfold]
  exact List.perm_singleton.mp (List.mergeSort_perm _ _)

lemma font_supports_arabic_traced_fst (f : FontFile) :
    (font_supports_arabic_traced f).1 = font_supports_arabic f := by
  cases f with
  | unparsable => rfl
  | parsed d =>
    cases h : d.cmapTables with
    | none => simp [font_supports_arabic_traced, font_supports_arabic, h]
    | some tables =>
      simp only [font_supports_arabic_traced, font_supports_arabic, h]
      split_ifs with ha <;> simp [ha]

lemma get_family_from_fontfile_traced_fst (f : FontFile) :
    (get_family_from_fontfile_traced f).1 = get_family_from_fontfile f := by
  cases f with
  | unparsable => rfl
  | parsed d =>
    cases hn : d.nameTable with
    | none => simp [get_family_from_fontfile_traced, get_family_from_fontfile, hn]
    | some records =>
      simp only [get_family_from_fontfile_traced, get_family_from_fontfile, hn]
      cases hr : records.find? (fun r => r.nameID = 1) with
      | none => rfl
      | some r => cases hv : r.value <;> simp [hv]

/-- C5: on the strict validation endpoint, with all three fields supplied,
the request proceeds to rendering exactly when the supplied filename is a
catalog key whose declared family equals the supplied family verbatim and
the referenced file exists on disk; a non-matching pair yields the 400
`Invalid font selection.` error and a missing file the 400
`Font file not found.` error — never a fallback. -/
theorem claim_C5 (req : ConvertHtmlRequest) (dir : FontDir)
    (fileExists : String → Bool) (toUri : String → String)
    (render : String → String → Except String (List Nat))
    (hh : pyTruthy (effectiveFields req).1 = true)
    (hfn : pyTruthy (effectiveFields req).2.1 = true)
    (hfam : pyTruthy (effectiveFields req).2.2 = true) :
    (validFontsLookup (get_font_display_list dir)
        ((effectiveFields req).2.1.getD "") ≠
          some ((effectiveFields req).2.2.getD "") →
      convert_html_old req dir fileExists toUri render =
        .error ⟨400, "Invalid font selection."⟩) ∧
    (validFontsLookup (get_font_display_list dir)
        ((effectiveFields req).2.1.getD "") =
          some ((effectiveFields req).2.2.getD "") →
      fileExists ((effectiveFields req).2.1.getD "") = false →
      convert_html_old req dir fileExists toUri render =
        .error ⟨400, "Font file not found."⟩) ∧
    (validFontsLookup (get_font_display_list dir)
        ((effectiveFields req).2.1.getD "") =
          some ((effectiveFields req).2.2.getD "") →
      fileExists ((effectiveFields req).2.1.getD "") = true →
      convert_html_old req dir fileExists toUri render =
        renderOutcome render ((effectiveFields req).1.getD "")
          (old_custom_css ((effectiveFields req).2.2.getD "")
            (toUri ((effectiveFields req).2.1.getD "")))) := by
  refine ⟨?_, ?_, ?_⟩
  · intro hne
    unfold convert_html_old
    rw [if_neg (by simp [hh, hfn, hfam]), if_pos (by simp [hne])]
  · intro heq hmiss
    unfold convert_html_old
    rw [if_neg (by simp [hh, hfn, hfam]), if_neg (by simp [heq]),
      if_pos (by simp [hmiss])]
  · intro heq hex
    unfold convert_html_old
    rw [if_neg (by simp [hh, hfn, hfam]), if_neg (by simp [heq]),
      if_neg (by simp [hex])]

/-- Witness for C5: the spec's own example — supplied family `Wrong Name`
against a catalog file `X.TTF` declaring `Right Name` is rejected 400. -/
theorem claim_C5_witness :
    convert_html_old
      ⟨some "<p>x</p>", some "X.TTF", some "Wrong Name", none⟩
      ⟨true, [⟨"X.TTF", true,
        FontFile.parsed ⟨some [[0x627]], some [⟨1, some "Right Name"⟩]⟩⟩]⟩
      (fun _ => true) (fun s => s) (fun _ _ => Except.ok [0]) =
      Except.error ⟨400, "Invalid font selection."⟩ := by
  have hcat : get_font_display_list
      ⟨true, [⟨"X.TTF", true,
        FontFile.parsed ⟨some [[0x627]], some [⟨1, some "Right Name"⟩]⟩⟩]⟩ =
      [⟨"X.TTF", "Right Name"⟩] :=
    display_list_singleton _ _ rfl (by decide)
  refine (claim_C5 ⟨some "<p>x</p>", some "X.TTF", some "Wrong Name", none⟩
    ⟨true, [⟨"X.TTF", true,
      FontFile.parsed ⟨some [[0x627]], some [⟨1, some "Right Name"⟩]⟩⟩]⟩
    (fun _ => true) (fun s => s) (fun _ _ => Except.ok [0])
    rfl rfl rfl).1 ?_
  rw [hcat]
  decide

/-- C6: for every request that reaches rendering (its HTML field is truthy),
the endpoint result is exactly the wrapped outcome of the rendering engine
on some stylesheet, and that wrapper re-signals every engine error as the
single 500 `PDF generation failed: ...` error carrying the engine's
original message; no other outcome shape is possible. -/
theorem claim_C6 (req : ConvertHtmlRequest) (payload : SavePdfPayload)
    (dir : FontDir) (fileExists : String → Bool) (toUri : String → String)
    (render : String → String → Except String (List Nat)) :
    (∀ html css e, render html css = Except.error e →
      renderOutcome render html css =
        Except.error ⟨500, "PDF generation failed: " ++ e⟩) ∧
    (pyTruthy (effectiveFields req).1 = true →
      ∃ css, convert_html req dir fileExists toUri render =
        renderOutcome render ((effectiveFields req).1.getD "") css) ∧
    (payload.HtmlContent ≠ "" →
      ∃ css fn, save_pdf payload dir fileExists toUri render =
        (match renderOutcome render payload.HtmlContent css with
         | .ok b => .ok (fn, b)
         | .error e => .error e)) := by
  refine ⟨?_, ?_, ?_⟩
  · intro html css e he
    unfold renderOutcome
    rw [he]
  · intro h
    refine ⟨cssForResolved (resolveFontConvert req dir) fileExists toUri, ?_⟩
    unfold convert_html
    rw [if_neg (by simp [h])]
  · intro h
    refine ⟨cssForResolved (resolveFontSave payload dir) fileExists toUri,
      (pyOr payload.FileName (some "document.pdf")).getD "", ?_⟩
    unfold save_pdf
    rw [if_neg h]

/-- Witness for C6: a constantly-failing engine makes both endpoints answer
500 with the engine message `boom` surfaced in the detail. -/
theorem claim_C6_witness :
    (renderOutcome (fun _ _ => Except.error "boom") "x" "css" =
      Except.error ⟨500, "PDF generation failed: boom"⟩) ∧
    (∃ css, convert_html ⟨some "x", none, none, none⟩ ⟨false, []⟩
        (fun _ => false) (fun s => s) (fun _ _ => Except.error "boom") =
      renderOutcome (fun _ _ => Except.error "boom") "x" css) ∧
    (∃ css fn, save_pdf ⟨"x", none, none, none⟩ ⟨false, []⟩
        (fun _ => false) (fun s => s) (fun _ _ => Except.error "boom") =
      (match renderOutcome (fun _ _ => Except.error "boom") "x" css with
       | .ok b => .ok (fn, b)
       | .error e => .error e)) :=
  ⟨(claim_C6 ⟨some "x", none, none, none⟩ ⟨"x", none, none, none⟩
      ⟨false, []⟩ (fun _ => false) (fun s => s)
      (fun _ _ => Except.error "boom")).1 "x" "css" "boom" rfl,
   (claim_C6 ⟨some "x", none, none, none⟩ ⟨"x", none, none, none⟩
      ⟨false, []⟩ (fun _ => false) (fun s => s)
      (fun _ _ => Except.error "boom")).2.1 rfl,
   (claim_C6 ⟨some "x", none, none, none⟩ ⟨"x", none, none, none⟩
      ⟨false, []⟩ (fun _ => false) (fun s => s)
      (fun _ _ => Except.error "boom")).2.2 (by decide)⟩

/-- C7 fails as stated for the savepdf half: `HtmlContent` is a required
pydantic field (main.py line 272), so a request whose body is missing it is
rejected by the framework's request validation with HTTP 422 — not 400 —
and the handler never runs. -/
theorem claim_C7_counterexample :
    savepdf_endpoint ⟨none, none, none, none⟩ ⟨false, []⟩ (fun _ => false)
      (fun s => s) (fun _ _ => Except.ok [0]) =
      Except.error ⟨422, "Field required: HtmlContent"⟩ ∧
    (422 : Nat) ≠ 400 :=
  ⟨rfl, by decide⟩

/-- C7 (amended): for every request in which the HTML content field is
missing, `POST /api/convert-html` returns HTTP 400 `Missing html_content.`;
for `POST /api/pdf/savepdf`, a body missing `HtmlContent` is rejected by
request validation with HTTP 422 before the handler runs, and the handler's
400 `HtmlContent is required.` is returned exactly when `HtmlContent` is
present but empty. -/
theorem claim_C7 (req : ConvertHtmlRequest) (body : SavePdfBody)
    (dir : FontDir) (fileExists : String → Bool) (toUri : String → String)
    (render : String → String → Except String (List Nat)) :
    (pyTruthy (effectiveFields req).1 = false →
      convert_html req dir fileExists toUri render =
        .error ⟨400, "Missing html_content."⟩) ∧
    (body.HtmlContent = none →
      savepdf_endpoint body dir fileExists toUri render =
        .error ⟨422, "Field required: HtmlContent"⟩) ∧
    (body.HtmlContent = some "" →
      savepdf_endpoint body dir fileExists toUri render =
        .error ⟨400, "HtmlContent is required."⟩) := by
  refine ⟨?_, ?_, ?_⟩
  · intro h
    unfold convert_html
    rw [if_pos (by simp [h])]
  · intro h
    unfold savepdf_endpoint validateSavePdfBody
    rw [h]
  · intro h
    unfold savepdf_endpoint validateSavePdfBody
    rw [h]
    show save_pdf ⟨"", body.FileName, body.FontFileName, body.FontFamily⟩
        dir fileExists toUri render =
      Except.error ⟨400, "HtmlContent is required."⟩
    unfold save_pdf
    rw [if_pos rfl]

/-- Witness for C7: a request with `html_content` absent is answered 400 by
convert-html; a savepdf body missing `HtmlContent` is answered 422, and one
carrying an empty `HtmlContent` is answered 400. -/
theorem claim_C7_witness :
    convert_html ⟨none, none, none, none⟩ ⟨false, []⟩ (fun _ => false)
      (fun s => s) (fun _ _ => Except.ok [0]) =
      Except.error ⟨400, "Missing html_content."⟩ ∧
    savepdf_endpoint ⟨none, none, none, none⟩ ⟨false, []⟩ (fun _ => false)
      (fun s => s) (fun _ _ => Except.ok [0]) =
      Except.error ⟨422, "Field required: HtmlContent"⟩ ∧
    savepdf_endpoint ⟨some "", none, none, none⟩ ⟨false, []⟩ (fun _ => false)
      (fun s => s) (fun _ _ => Except.ok [0]) =
      Except.error ⟨400, "HtmlContent is required."⟩ :=
  ⟨(claim_C7 ⟨none, none, none, none⟩ ⟨none, none, none, none⟩ ⟨false, []⟩
      (fun _ => false) (fun s => s) (fun _ _ => Except.ok [0])).1 rfl,
   (claim_C7 ⟨none, none, none, none⟩ ⟨none, none, none, none⟩ ⟨false, []⟩
      (fun _ => false) (fun s => s) (fun _ _ => Except.ok [0])).2.1 rfl,
   (claim_C7 ⟨none, none, none, none⟩ ⟨some "", none, none, none⟩ ⟨false, []⟩
      (fun _ => false) (fun s => s) (fun _ _ => Except.ok [0])).2.2 rfl⟩

/-- C9 fails on the code: when a font parses but its cmap table is missing,
`font_supports_arabic` opens a `TTFont` handle, `tt["cmap"]` raises, the
bare `except` swallows the exception, and `tt.close()` is never reached on
that exit path; likewise `get_family_from_fontfile` when `tt["name"]` is
missing. The opened handle count exceeds the closed count on those paths. -/
theorem claim_C9 :
    font_supports_arabic_traced (FontFile.parsed ⟨none, some []⟩) =
      (false, ⟨1, 0⟩) ∧
    get_family_from_fontfile_traced (FontFile.parsed ⟨some [], none⟩) =
      (none, ⟨1, 0⟩) ∧
    (1 : Nat) ≠ 0 :=
  ⟨rfl, rfl, by decide⟩

/-- C10: on the lenient endpoints, when the resolved `(family, filename)`
pair is truthy but the referenced font file does not exist on disk, the
request is not rejected: the stylesheet silently falls back to
`build_css(None, None)` and the request proceeds to rendering. -/
theorem claim_C10 (req : ConvertHtmlRequest) (payload : SavePdfPayload)
    (dir : FontDir) (fileExists : String → Bool) (toUri : String → String)
    (render : String → String → Except String (List Nat)) :
    (pyTruthy (effectiveFields req).1 = true →
      pyTruthy (resolveFontConvert req dir).1 = true →
      pyTruthy (resolveFontConvert req dir).2 = true →
      fileExists ((resolveFontConvert req dir).2.getD "") = false →
      convert_html req dir fileExists toUri render =
        renderOutcome render ((effectiveFields req).1.getD "")
          (build_css none none)) ∧
    (payload.HtmlContent ≠ "" →
      pyTruthy (resolveFontSave payload dir).1 = true →
      pyTruthy (resolveFontSave payload dir).2 = true →
      fileExists ((resolveFontSave payload dir).2.getD "") = false →
      save_pdf payload dir fileExists toUri render =
        (match renderOutcome render payload.HtmlContent
            (build_css none none) with
         | .ok b => .ok ((pyOr payload.FileName (some "document.pdf")).getD "", b)
         | .error e => .error e)) := by
  constructor
  · intro h1 h2 h3 h4
    unfold convert_html cssForResolved
    rw [if_neg (by simp [h1]), if_pos (by simp [h2, h3]),
      if_pos (by simp [h4])]
  · intro h1 h2 h3 h4
    unfold save_pdf cssForResolved
    rw [if_neg h1, if_pos (by simp [h2, h3]),
      if_pos (by simp [h4])]

/-- Witness for C10: both endpoints, given an explicit pair naming a file
that does not exist, still render with the no-font stylesheet. -/
theorem claim_C10_witness :
    convert_html ⟨some "x", some "No.TTF", some "Fam", none⟩ ⟨false, []⟩
      (fun _ => false) (fun s => s) (fun _ _ => Except.ok [0]) =
      renderOutcome (fun _ _ => Except.ok [0]) "x" (build_css none none) ∧
    save_pdf ⟨"x", some "doc.pdf", some "No.TTF", some "Fam"⟩
      ⟨false, []⟩ (fun _ => false) (fun s => s)
      (fun _ _ => Except.ok [0]) =
      (match renderOutcome (fun _ _ => Except.ok [0]) "x"
          (build_css none none) with
       | .ok b => .ok (((pyOr (some "doc.pdf") (some "document.pdf")).getD ""), b)
       | .error e => .error e) :=
  ⟨(claim_C10 ⟨some "x", some "No.TTF", some "Fam", none⟩
      ⟨"x", some "doc.pdf", some "No.TTF", some "Fam"⟩ ⟨false, []⟩
      (fun _ => false) (fun s => s) (fun _ _ => Except.ok [0])).1
      rfl (by decide) (by decide) rfl,
   (claim_C10 ⟨some "x", some "No.TTF", some "Fam", none⟩
      ⟨"x", some "doc.pdf", some "No.TTF", some "Fam"⟩ ⟨false, []⟩
      (fun _ => false) (fun s => s) (fun _ _ => Except.ok [0])).2
      (by decide) (by decide) (by decide) rfl⟩

end FastapiHtml2Pdf
